import Mathlib

/-!
Shallow embedding of the modeling pipeline of `compara.py` (covid-br).

Conventions used throughout:
* pandas columns become `List ℚ`; a missing value (`NaN`) — and, inside the
  projection loop, any non-finite float (`NaN`/`inf`) — is modelled as `none`
  in `Option ℚ`.  Float `+`, `*`, `/` never turn a non-finite operand into a
  finite result, so absorbing `none` is a sound abstraction for this code.
* region/country names are the strings used by the source.
* the Pearson matrix `data.corr()` is an abstract parameter `corr : Name → ℚ`
  of the model stage (square roots make exact Pearson irrational in general);
  the predicate `isPearson` characterises the exactly-rational instances used
  by concrete witnesses, so every correlation vector we instantiate is
  realisable by actual data columns.
-/

namespace CovidBr

/-- Region and country names, as in the pandas tables. -/
abbrev Name := String

/-!  ### DataAligner: `preparar_dados` (compara.py lines 56-145) -/

/-- Model of `raw.ge(p1).idxmax()` for one column: pandas `idxmax` over the
boolean column `value ≥ p1` returns the index of the first `True`, and the
first index (`0`) when the column is all-`False`. -/
def idxmaxGe (p1 : ℚ) (xs : List ℚ) : ℕ :=
  if ∃ x ∈ xs, p1 ≤ x then xs.findIdx (fun x => decide (p1 ≤ x)) else 0

/-- Input tables of `preparar_dados`: the world daily-deaths table `raw`
(columns all share one day axis), the world population table `popu`, and the
brasil.io state/city cumulative-death columns (most recent day first, already
zero-filled) with their population figures. -/
structure PrepIn where
  rawNames : List Name
  raw : Name → List ℚ
  popuNames : List Name
  population : Name → ℚ
  spState : List ℚ
  spStatePopu : ℚ
  spCity : List ℚ
  spCityPopu : ℚ

/-- Onset index of region `k`: `inicio[k] = raw.ge(p1).idxmax()[k]`. -/
def inicioOf (inp : PrepIn) (p1 : ℚ) (k : Name) : ℕ :=
  idxmaxGe p1 (inp.raw k)

/-- Column `data['Brazil'] = raw['Brazil'][inicio['Brazil']:] * p4`. -/
def dataBrazil (inp : PrepIn) (p1 p4 : ℚ) : List ℚ :=
  ((inp.raw ("Brazil")).drop (inicioOf inp p1 ("Brazil"))).map (fun v => v * p4)

/-- The canonical window length `nbr = data.shape[0]` (independent of `p4`). -/
def nbrOf (inp : PrepIn) (p1 : ℚ) : ℕ :=
  ((inp.raw ("Brazil")).drop (inicioOf inp p1 ("Brazil"))).length

/-- Daily increments recovered from a cumulative most-recent-first column:
`head(n+1)`, adjacent differences `l[i] - l[i+1]`, then `reverse()`. -/
def diffRev (n : ℕ) (cum : List ℚ) : List ℚ :=
  let l := cum.take (n + 1)
  (List.zipWith (fun a b => a - b) l (l.drop 1)).reverse

/-- The uncorrected SP-state daily series (local variable `SP_estado`). -/
def spStateDaily (inp : PrepIn) (p1 : ℚ) : List ℚ :=
  diffRev (nbrOf inp p1) inp.spState

/-- Column `data['SP'] = pd.Series(SP_estado).values * p4`. -/
def dataSP (inp : PrepIn) (p1 p4 : ℚ) : List ℚ :=
  (spStateDaily inp p1).map (fun v => v * p4)

/-- The uncorrected SP-city daily series (local variable `SP_city`). -/
def spCityDaily (inp : PrepIn) (p1 : ℚ) : List ℚ :=
  diffRev (nbrOf inp p1) inp.spCity

/-- Column `data['SP_City'] = pd.Series(SP_city).values * p4`. -/
def dataSPCity (inp : PrepIn) (p1 p4 : ℚ) : List ℚ :=
  (spCityDaily inp p1).map (fun v => v * p4)

/-- Column `data['Brazil_sem_SP'] = [x[0]-x[1] for x in zip(data['Brazil'],
SP_estado)]`: the already-corrected Brazil column minus the *uncorrected*
SP-state daily series. -/
def dataBrSemSP (inp : PrepIn) (p1 p4 : ℚ) : List ℚ :=
  List.zipWith (fun b s => b - s) (dataBrazil inp p1 p4) (spStateDaily inp p1)

/-- Loop guard of the country loop: `k` is added to `data` iff it is not
Brazil, has population data, and `0 < inicio[k] ≤ inicio['Brazil']`. -/
def includedCountry (inp : PrepIn) (p1 : ℚ) (k : Name) : Prop :=
  k ≠ "Brazil" ∧ k ∈ inp.popuNames ∧ inicioOf inp p1 k ≠ 0 ∧
    inicioOf inp p1 k ≤ inicioOf inp p1 ("Brazil")

instance (inp : PrepIn) (p1 : ℚ) (k : Name) :
    Decidable (includedCountry inp p1 k) := by
  unfold includedCountry; infer_instance

/-- Column `data[k] = raw[k][inicio[k]:inicio[k]+nbr]` for an included
country `k` (no `p4` factor). -/
def dataCountry (inp : PrepIn) (p1 : ℚ) (k : Name) : List ℚ :=
  ((inp.raw k).drop (inicioOf inp p1 k)).take (nbrOf inp p1)

/-- Countries actually appended to `data`, in `inicio.keys()` order. -/
def includedCountries (inp : PrepIn) (p1 : ℚ) : List Name :=
  inp.rawNames.filter (fun k => decide (includedCountry inp p1 k))

/-- The dict `popuBR` of populations per target cut. -/
def popuBROf (inp : PrepIn) (k : Name) : ℚ :=
  if k = "SP" then inp.spStatePopu
  else if k = "SP_City" then inp.spCityPopu
  else if k = "Brazil_sem_SP" then inp.population ("Brazil") - inp.spStatePopu
  else inp.population ("Brazil")

/-- The dict `por100k`: each target cut's column times `10^5 /` its
population. -/
def por100kOf (inp : PrepIn) (p1 p4 : ℚ) (k : Name) : List ℚ :=
  let col :=
    if k = "SP" then dataSP inp p1 p4
    else if k = "SP_City" then dataSPCity inp p1 p4
    else if k = "Brazil_sem_SP" then dataBrSemSP inp p1 p4
    else dataBrazil inp p1 p4
  col.map (fun v => v * 100000 / popuBROf inp k)

/-- Spec-side onset ("Modelled from the spec", for comparison with the code's
`idxmaxGe`): the first day-index at which the *cumulative* reported deaths
reach `p1`, `none` when never reached. -/
def onsetSpecCum (p1 : ℚ) (xs : List ℚ) : Option ℕ :=
  ((List.range xs.length).map (fun i => (xs.take (i + 1)).sum)).findIdx?
    (fun s => decide (p1 ≤ s))

/-!  ### Exact rational Pearson correlation

`data.corr()` computes Pearson coefficients `sxy / sqrt (sxx * syy)`; the
square root keeps the value out of `ℚ` in general, so the model stage takes
the correlation column `pearson[ref]` as a parameter.  `isPearson` pins down
the cases where the coefficient is exactly rational; witnesses below only use
correlation values realisable through it. -/

/-- Mean of a column. -/
def meanQ (xs : List ℚ) : ℚ := xs.sum / xs.length

/-- Centred second moment `sxy = Σ (x - mean xs) * (y - mean ys)`. -/
def sxy (xs ys : List ℚ) : ℚ :=
  (List.zipWith (fun a b => (a - meanQ xs) * (b - meanQ ys)) xs ys).sum

/-- The Pearson coefficient of `xs` and `ys` is defined and exactly the
rational `r`: both variances are nonzero, `r` has the sign of `sxy`, and
`r^2 * (sxx * syy) = sxy^2` (so `r = sxy / sqrt (sxx*syy)`). -/
def isPearson (xs ys : List ℚ) (r : ℚ) : Prop :=
  sxy xs xs * sxy ys ys ≠ 0 ∧
    r ^ 2 * (sxy xs xs * sxy ys ys) = (sxy xs ys) ^ 2 ∧
    (0 ≤ r ↔ 0 ≤ sxy xs ys)

/-!  ### ProjectionEngine: `rodar_modelo` (compara.py lines 148-259)

Option-valued arithmetic: `none` stands for a non-finite float (`NaN` in the
tables; `NaN` or `±inf` once a division has happened).  IEEE `+`, `*`, `/`
never map a non-finite operand to a finite result, so absorbing `none` tracks
exactly the set of non-finite positions of the float computation. -/

/-- Float product with non-finite absorption. -/
def optMul : Option ℚ → Option ℚ → Option ℚ
  | some a, some b => some (a * b)
  | _, _ => none

/-- Float sum with non-finite absorption. -/
def optAdd : Option ℚ → Option ℚ → Option ℚ
  | some a, some b => some (a + b)
  | _, _ => none

/-- Pad a finite pandas column to the frame length of `pd.concat(axis=1)`:
trailing positions are `NaN`. -/
def padTo (n : ℕ) (xs : List ℚ) : List (Option ℚ) :=
  xs.map some ++ List.replicate (n - xs.length) none

/-- Mean of a rolling window: `NaN` as soon as the window holds a `NaN`
(pandas default `min_periods = window`). -/
def meanOpt (w : List (Option ℚ)) : Option ℚ :=
  if w.all Option.isSome then some ((w.reduceOption).sum / w.length) else none

/-- Model of `column.rolling(p3).mean()`: entry `i` is `NaN` while fewer than
`p3` periods are available, else the mean of the trailing `p3`-window. -/
def rollingMean (p3 : ℕ) (xs : List (Option ℚ)) : List (Option ℚ) :=
  (List.range xs.length).map (fun i =>
    if i + 1 < p3 then none else meanOpt ((xs.drop (i + 1 - p3)).take p3))

/-- Input state of `rodar_modelo`: the tables produced by `preparar_dados`
plus the reference-cut data, with the Pearson column `pearson[ref]` abstract
(see `isPearson`). -/
structure ModelIn where
  names : List Name
  corr : Name → ℚ
  raw : Name → List ℚ
  inicio : Name → ℕ
  popu : Name → ℚ
  por100kRef : List ℚ
  nbr : ℕ
  popuRef : ℚ

/-- The excluded local cuts (`out` in the source). -/
def out : List Name := ["Brazil", "Brazil_sem_SP", "SP", "SP_City"]

/-- Model of `pearson[ref].sort_values(ascending=False).keys()`: the column
names sorted by descending correlation (insertion sort; any descending sort
yields the properties proved below, which are tie-insensitive). -/
def sortDesc (corr : Name → ℚ) (ns : List Name) : List Name :=
  List.insertionSort (fun a b => corr b ≤ corr a) ns

/-- `correlacionados = [k for k in sorted if k not in out][:p2]`. -/
def correlacionadosOf (m : ModelIn) (p2 : ℕ) : List Name :=
  ((sortDesc m.corr m.names).filter (fun k => decide (k ∉ out))).take p2

/-- Normalised weight of comparator `c`:
`pearson[ref][c] / sum(pearson[ref][c'] for c' in correlacionados)`. -/
def pesoOf (m : ModelIn) (p2 : ℕ) (c : Name) : ℚ :=
  m.corr c / ((correlacionadosOf m p2).map m.corr).sum

/-- A comparator's full-history normalised column:
`raw[k][inicio[k]:] * 1e5 / population` with the China population override. -/
def comparatorCol (m : ModelIn) (k : Name) : List ℚ :=
  ((m.raw k).drop (m.inicio k)).map
    (fun v => v * 100000 / (if k = "China" then 15000000 else m.popu k))

/-- Frame length of `calibrados` (`calibrados.shape[0]`): the longest of the
reference column and the comparator columns. -/
def totalLen (m : ModelIn) (p2 : ℕ) : ℕ :=
  ((correlacionadosOf m p2).map (fun k => (comparatorCol m k).length)).foldl
    max m.por100kRef.length

/-- Calibrated (padded then smoothed) column of comparator `k`. -/
def calibColOf (m : ModelIn) (p2 p3 : ℕ) (k : Name) : List (Option ℚ) :=
  rollingMean p3 (padTo (totalLen m p2) (comparatorCol m k))

/-- Calibrated column of the reference cut. -/
def calibRef (m : ModelIn) (p2 p3 : ℕ) : List (Option ℚ) :=
  rollingMean p3 (padTo (totalLen m p2) m.por100kRef)

/-- One comparator's contribution to the day-`d` multiplier:
`(calibrados[c][d] / calibrados[c][d-1]) * pesos[c]` when `calibrados[c][d]`
is not `NaN`, else the neutral `1 * pesos[c]`.  A zero or `NaN` divisor makes
the float quotient non-finite: `none`. -/
def contrib (col : List (Option ℚ)) (w : ℚ) (d : ℕ) : Option ℚ :=
  match col.getD d none with
  | none => some w
  | some v =>
    match col.getD (d - 1) none with
    | none => none
    | some u => if u = 0 then none else some (v / u * w)

/-- The day-`d` multiplier `x`: sum over the comparators of their
contributions, starting from `x = 0`. -/
def xDayOf (m : ModelIn) (p2 p3 : ℕ) (d : ℕ) : Option ℚ :=
  (correlacionadosOf m p2).foldl
    (fun acc c => optAdd acc (contrib (calibColOf m p2 p3 c) (pesoOf m p2 c) d))
    (some 0)

/-- The seam value `calibrados[ref][nbr - 1]`. -/
def seamOf (m : ModelIn) (p2 p3 : ℕ) : Option ℚ :=
  (calibRef m p2 p3).getD (m.nbr - 1) none

/-- The appended tail of the projection loop: for each day in `ds`, append
`proj[-1] * x` and continue from the appended value. -/
def projTail (m : ModelIn) (p2 p3 : ℕ) : Option ℚ → List ℕ → List (Option ℚ)
  | _, [] => []
  | prev, d :: ds =>
    optMul prev (xDayOf m p2 p3 d) :: projTail m p2 p3 (optMul prev (xDayOf m p2 p3 d)) ds

/-- The full `projetado` array: `nbr - 1` leading `NaN`s, the seam value, then
the loop over days `nbr, …, calibrados.shape[0] - 1`. -/
def projOf (m : ModelIn) (p2 p3 : ℕ) : List (Option ℚ) :=
  List.replicate (m.nbr - 1) none ++ [seamOf m p2 p3] ++
    projTail m p2 p3 (seamOf m p2 p3) (List.range' m.nbr (totalLen m p2 - m.nbr))

/-!  ### SummaryExtractor (compara.py lines 243-257) -/

/-- Model of `np.nan_to_num` at one position. -/
def nanToNum (x : Option ℚ) : ℚ := x.getD 0

/-- `pico = np.nan_to_num(projetado).max()` (the empty array is mapped to `0`;
`np.max` on an empty array raises, theorems carry nonemptiness). -/
def picoOf (l : List (Option ℚ)) : ℚ :=
  match l.map nanToNum with
  | [] => 0
  | x :: xs => xs.foldl max x

/-- `proj.index(pico)`: the first position whose *actual* entry equals `pico`
(`NaN` compares unequal to everything); `none` models the `ValueError` raised
when no entry equals `pico`. -/
def ixDoPicoOf (l : List (Option ℚ)) : Option ℕ :=
  l.findIdx? (fun x => decide (x = some (picoOf l)))

/-- Python `int()` on a float: truncation toward zero. -/
def truncQ (q : ℚ) : ℤ := if 0 ≤ q then ⌊q⌋ else ⌈q⌉

/-- `mortes_no_pico = int(pico * popuBR[ref] / 100000)`. -/
def mortesNoPicoOf (l : List (Option ℚ)) (pop : ℚ) : ℤ :=
  truncQ (picoOf l * pop / 100000)

/-- `dia_do_pico = now + timedelta(days = ix_do_pico - nbr)`, with calendar
days modelled as integers and the wall clock as the parameter `today`. -/
def diaDoPicoOf (l : List (Option ℚ)) (nbr : ℕ) (today : ℤ) : Option ℤ :=
  (ixDoPicoOf l).map (fun i => today + ((i : ℤ) - (nbr : ℤ)))

/-!  ### Full pipeline wiring -/

/-- Wires the `preparar_dados` outputs into the `rodar_modelo` state.  The
column order of `data` is Brazil, SP, SP_City, Brazil_sem_SP, then the
included countries; `data.corr()` is a deterministic function of `data`,
passed through as the abstract column `corr`. -/
def modelOf (inp : PrepIn) (corr : Name → ℚ) (p1 p4 : ℚ) (ref : Name) :
    ModelIn where
  names := "Brazil" :: "SP" :: "SP_City" :: "Brazil_sem_SP" ::
    includedCountries inp p1
  corr := corr
  raw := inp.raw
  inicio := fun k => inicioOf inp p1 k
  popu := inp.population
  por100kRef := por100kOf inp p1 p4 ref
  nbr := nbrOf inp p1
  popuRef := popuBROf inp ref

/-- Everything one invocation computes, including the clock-dependent peak
date. -/
structure RunOut where
  alignedBrazil : List ℚ
  alignedSP : List ℚ
  alignedSPCity : List ℚ
  alignedBrSemSP : List ℚ
  alignedCountries : List (Name × List ℚ)
  correlacionados : List Name
  calibRefCol : List (Option ℚ)
  calibCols : List (Name × List (Option ℚ))
  projetado : List (Option ℚ)
  pico : ℚ
  mortesNoPico : ℤ
  ixDoPico : Option ℕ
  diaDoPico : Option ℤ

/-- One run of the full pipeline (`preparar_dados` then `rodar_modelo`),
on fixed input tables, at wall-clock date `today`. -/
def runPipeline (inp : PrepIn) (corr : Name → ℚ) (p1 p4 : ℚ) (p2 p3 : ℕ)
    (ref : Name) (today : ℤ) : RunOut :=
  let m := modelOf inp corr p1 p4 ref
  let proj := projOf m p2 p3
  { alignedBrazil := dataBrazil inp p1 p4
    alignedSP := dataSP inp p1 p4
    alignedSPCity := dataSPCity inp p1 p4
    alignedBrSemSP := dataBrSemSP inp p1 p4
    alignedCountries :=
      (includedCountries inp p1).map (fun k => (k, dataCountry inp p1 k))
    correlacionados := correlacionadosOf m p2
    calibRefCol := calibRef m p2 p3
    calibCols :=
      (correlacionadosOf m p2).map (fun k => (k, calibColOf m p2 p3 k))
    projetado := proj
    pico := picoOf proj
    mortesNoPico := mortesNoPicoOf proj (popuBROf inp ref)
    ixDoPico := ixDoPicoOf proj
    diaDoPico := diaDoPicoOf proj m.nbr today }

/-!  ### Concrete input tables used by witnesses and counterexamples -/

/-- A small concrete world table: Brazil reaches 3 daily deaths on day 2,
Chile on day 1 (so Chile is included). -/
def inpA : PrepIn where
  rawNames := ["Brazil", "Chile"]
  raw := fun k =>
    if k = "Brazil" then [1, 2, 4, 5] else if k = "Chile" then [1, 3, 9, 1] else []
  popuNames := ["Brazil", "Chile"]
  population := fun k => if k = "Brazil" then 200000 else 100000
  spState := [10, 6, 3, 1, 0]
  spStatePopu := 50000
  spCity := [4, 3, 1, 0, 0]
  spCityPopu := 20000

/-- A world table whose target series never reaches the threshold 3. -/
def inpB : PrepIn where
  rawNames := ["Brazil"]
  raw := fun k => if k = "Brazil" then [0, 1] else []
  popuNames := ["Brazil"]
  population := fun _ => 100000
  spState := [0, 0, 0]
  spStatePopu := 1
  spCity := [0, 0, 0]
  spCityPopu := 1

/-- A one-day table isolating the complement-cut arithmetic. -/
def inpC : PrepIn where
  rawNames := ["Brazil"]
  raw := fun k => if k = "Brazil" then [10] else []
  popuNames := ["Brazil"]
  population := fun _ => 100000
  spState := [2, 0]
  spStatePopu := 1000
  spCity := [0, 0]
  spCityPopu := 100

/-- A minimal pipeline table for the determinism claim: the target is the
whole run's only region and also the reference cut. -/
def inpD : PrepIn where
  rawNames := ["Brazil"]
  raw := fun k => if k = "Brazil" then [3, 4] else []
  popuNames := ["Brazil"]
  population := fun _ => 100000
  spState := [0, 0, 0]
  spStatePopu := 1
  spCity := [0, 0, 0]
  spCityPopu := 1

/-- A concrete model state with one comparator (Chile, correlation 9/10) two
days ahead of a two-day reference. -/
def mA : ModelIn where
  names := ["Brazil", "SP", "SP_City", "Brazil_sem_SP", "Chile"]
  corr := fun k => if k = "Chile" then 9 / 10 else if k = "SP_City" then 1 else 0
  raw := fun k => if k = "Chile" then [1, 3, 9, 1] else []
  inicio := fun k => if k = "Chile" then 1 else 0
  popu := fun _ => 100000
  por100kRef := [2, 4]
  nbr := 2
  popuRef := 50000

/-- A concrete model state whose two selected comparators have correlations
1 and -1/2 with the reference (both exactly realisable, see `isPearson`). -/
def mB : ModelIn where
  names := ["Brazil", "SP", "SP_City", "Brazil_sem_SP", "Argentina", "Belgium"]
  corr := fun k =>
    if k = "Argentina" then 1 else if k = "Belgium" then -(1 / 2) else 0
  raw := fun _ => []
  inicio := fun _ => 0
  popu := fun _ => 100000
  por100kRef := [2, 4]
  nbr := 2
  popuRef := 50000

/-- A concrete model state whose single comparator has calibrated value 0 on
day `d - 1 = 0` and a present value on day `d = 1`. -/
def mC : ModelIn where
  names := ["Brazil", "SP", "SP_City", "Brazil_sem_SP", "Chile"]
  corr := fun k => if k = "Chile" then 1 else 0
  raw := fun k => if k = "Chile" then [0, 5] else []
  inicio := fun _ => 0
  popu := fun _ => 100000
  por100kRef := [1]
  nbr := 1
  popuRef := 50000

/-!  ### Helper lemmas on the onset search -/

theorem idxmaxGe_eq_findIdx {p1 : ℚ} {xs : List ℚ} (h : ∃ x ∈ xs, p1 ≤ x) :
    idxmaxGe p1 xs = xs.findIdx (fun x => decide (p1 ≤ x)) := by
  unfold idxmaxGe
  exact if_pos h

theorem idxmaxGe_lt_length {p1 : ℚ} {xs : List ℚ} (h : ∃ x ∈ xs, p1 ≤ x) :
    idxmaxGe p1 xs < xs.length := by
  rw [idxmaxGe_eq_findIdx h]
  exact List.findIdx_lt_length_of_exists (by simpa using h)

theorem le_getD_idxmaxGe {p1 : ℚ} {xs : List ℚ} (h : ∃ x ∈ xs, p1 ≤ x) :
    p1 ≤ xs.getD (idxmaxGe p1 xs) 0 := by
  have hlt := idxmaxGe_lt_length h
  rw [List.getD_eq_getElem?_getD, List.getElem?_eq_getElem hlt]
  have hp := @List.findIdx_getElem _ (fun x => decide (p1 ≤ x)) xs
    (by rw [← idxmaxGe_eq_findIdx h]; exact hlt)
  simp only [decide_eq_true_eq] at hp
  simpa [idxmaxGe_eq_findIdx h] using hp

theorem getD_lt_of_lt_idxmaxGe {p1 : ℚ} {xs : List ℚ} {j : ℕ}
    (hj : j < idxmaxGe p1 xs) : xs.getD j 0 < p1 := by
  by_cases h : ∃ x ∈ xs, p1 ≤ x
  · rw [idxmaxGe_eq_findIdx h] at hj
    have hjlen : j < xs.length :=
      Nat.lt_of_lt_of_le hj (List.findIdx_le_length _)
    have hp := List.not_of_lt_findIdx hj
    simp only [decide_eq_true_eq] at hp
    rw [List.getD_eq_getElem?_getD, List.getElem?_eq_getElem hjlen]
    simpa using lt_of_not_le (by simpa using hp)
  · unfold idxmaxGe at hj
    rw [if_neg h] at hj
    exact absurd hj (Nat.not_lt_zero j)

/-!  ### C1 — onset index of the DataAligner -/

/-- C1, counterexample.  The claim says the onset index is the first
day-index at which the *cumulative* deaths reach `p1`; the code computes
`raw.ge(p1).idxmax()` over the *daily* values.  For the daily series
`[1, 2, 4]` and `p1 = 3` the cumulative series `[1, 3, 7]` reaches 3 on day
1, but the aligner's onset is day 2. -/
theorem c1_counterexample :
    idxmaxGe 3 [1, 2, 4] = 2 ∧ onsetSpecCum 3 [1, 2, 4] = some 1 ∧
      some (idxmaxGe 3 [1, 2, 4]) ≠ onsetSpecCum 3 [1, 2, 4] := by
  refine ⟨?_, ?_, ?_⟩ <;>
    norm_num [idxmaxGe, onsetSpecCum, List.findIdx?_cons, List.findIdx_cons,
      List.range_succ]

/-- C1, amended: for every region the onset index computed by the DataAligner
is the first day-index at which that region's *daily* (not cumulative)
reported deaths reach the threshold `p1`, provided some day reaches it; this
index is day 0 of the region's aligned series (for the target the aligned
series is the `p4`-scaled tail of the raw series from the onset on, and for
an included country day 0 carries the raw value at its own onset). -/
theorem c1_onset_daily (inp : PrepIn) (p1 p4 : ℚ)
    (h : ∃ x ∈ inp.raw ("Brazil"), p1 ≤ x) :
    (∀ j < inicioOf inp p1 ("Brazil"), (inp.raw ("Brazil")).getD j 0 < p1) ∧
    p1 ≤ (inp.raw ("Brazil")).getD (inicioOf inp p1 ("Brazil")) 0 ∧
    dataBrazil inp p1 p4 =
      ((inp.raw ("Brazil")).drop (inicioOf inp p1 ("Brazil"))).map
        (fun v => v * p4) ∧
    (dataBrazil inp p1 p4).getD 0 0 =
      (inp.raw ("Brazil")).getD (inicioOf inp p1 ("Brazil")) 0 * p4 ∧
    (∀ k, (∃ x ∈ inp.raw k, p1 ≤ x) → 0 < nbrOf inp p1 →
      (dataCountry inp p1 k).getD 0 0 =
        (inp.raw k).getD (inicioOf inp p1 k) 0) := by
  have hlt : inicioOf inp p1 ("Brazil") < (inp.raw ("Brazil")).length :=
    idxmaxGe_lt_length h
  refine ⟨fun j hj => getD_lt_of_lt_idxmaxGe hj, le_getD_idxmaxGe h, rfl, ?_, ?_⟩
  · simp [dataBrazil, List.getElem?_drop, List.getElem?_eq_getElem hlt]
  · intro k hk hnbr
    have hklt : inicioOf inp p1 k < (inp.raw k).length := idxmaxGe_lt_length hk
    simp [dataCountry, List.getElem?_take_of_lt hnbr, List.getElem?_drop,
      List.getElem?_eq_getElem hklt]

/-- C1 witness: the amended theorem applied to the concrete table `inpA`
with `p1 = 3`, `p4 = 3/2`; Brazil's daily onset is day 2 and the aligned
series starts with `4 * (3/2) = 6` there. -/
theorem c1_witness :
    (∃ x ∈ inpA.raw ("Brazil"), (3 : ℚ) ≤ x) ∧
      ((∀ j < inicioOf inpA 3 ("Brazil"), (inpA.raw ("Brazil")).getD j 0 < 3) ∧
      (3 : ℚ) ≤ (inpA.raw ("Brazil")).getD (inicioOf inpA 3 ("Brazil")) 0 ∧
      dataBrazil inpA 3 (3 / 2) =
        ((inpA.raw ("Brazil")).drop (inicioOf inpA 3 ("Brazil"))).map
          (fun v => v * (3 / 2)) ∧
      (dataBrazil inpA 3 (3 / 2)).getD 0 0 =
        (inpA.raw ("Brazil")).getD (inicioOf inpA 3 ("Brazil")) 0 * (3 / 2) ∧
      (∀ k, (∃ x ∈ inpA.raw k, (3 : ℚ) ≤ x) → 0 < nbrOf inpA 3 →
        (dataCountry inpA 3 k).getD 0 0 =
          (inpA.raw k).getD (inicioOf inpA 3 k) 0)) :=
  ⟨by norm_num [inpA], c1_onset_daily inpA 3 (3 / 2) (by norm_num [inpA])⟩

/-!  ### C4 — missing target onset is not surfaced -/

/-- C4, counterexample.  The claim says a target that never reaches the onset
threshold is a fatal precondition surfaced to the caller, with no series
produced.  On the table `inpB` (target series `[0, 1]`, threshold 3, never
reached) `idxmax` silently returns index 0 and the aligner produces the full
two-day series for the target — the pipeline proceeds, nothing is raised. -/
theorem c4_counterexample :
    (∀ x ∈ inpB.raw ("Brazil"), x < 3) ∧
      inicioOf inpB 3 ("Brazil") = 0 ∧
      dataBrazil inpB 3 1 = [0, 1] ∧ nbrOf inpB 3 = 2 ∧
      dataBrazil inpB 3 1 ≠ [] := by
  have hdata : dataBrazil inpB 3 1 = [0, 1] := by
    norm_num [inpB, dataBrazil, inicioOf, idxmaxGe]
  refine ⟨by norm_num [inpB], ?_, hdata, ?_, ?_⟩
  · norm_num [inpB, inicioOf, idxmaxGe]
  · norm_num [inpB, nbrOf, inicioOf, idxmaxGe]
  · rw [hdata]
    exact List.cons_ne_nil _ _

/-- C4, amended: when the target country's raw series never reaches `p1`,
the DataAligner does *not* fail: `idxmax` yields onset index 0 and the
pipeline silently proceeds, treating day 0 as the onset and producing the
full-length `p4`-scaled series for the target. -/
theorem c4_silent_fallback (inp : PrepIn) (p1 p4 : ℚ)
    (h : ∀ x ∈ inp.raw ("Brazil"), x < p1) :
    inicioOf inp p1 ("Brazil") = 0 ∧
    dataBrazil inp p1 p4 = (inp.raw ("Brazil")).map (fun v => v * p4) ∧
    nbrOf inp p1 = (inp.raw ("Brazil")).length := by
  have hne : ¬ ∃ x ∈ inp.raw ("Brazil"), p1 ≤ x := by
    rintro ⟨x, hx, hle⟩
    exact absurd hle (not_le.mpr (h x hx))
  have h0 : inicioOf inp p1 ("Brazil") = 0 := by
    unfold inicioOf idxmaxGe
    exact if_neg hne
  refine ⟨h0, ?_, ?_⟩
  · unfold dataBrazil
    rw [h0, List.drop_zero]
  · unfold nbrOf
    rw [h0, List.drop_zero]

/-- C4 witness: the amended theorem applied to `inpB` with `p1 = 3`,
`p4 = 1`. -/
theorem c4_witness :
    (∀ x ∈ inpB.raw ("Brazil"), x < 3) ∧
      (inicioOf inpB 3 ("Brazil") = 0 ∧
      dataBrazil inpB 3 1 = (inpB.raw ("Brazil")).map (fun v => v * 1) ∧
      nbrOf inpB 3 = (inpB.raw ("Brazil")).length) :=
  ⟨by norm_num [inpB], c4_silent_fallback inpB 3 1 (by norm_num [inpB])⟩

/-!  ### C2 — where the under-reporting factor `p4` is applied -/

/-- C2, counterexample.  On `inpC` with `p1 = 3`, `p4 = 3/2` the raw Brazil
day is 10 and the raw SP day is 2: the code computes
`Brazil_sem_SP = (3/2)*10 - 2 = 13`, while the claim's formula
`p4 * (Brazil - SP) = (3/2)*(10-2)` gives 12. -/
theorem c2_counterexample :
    dataBrSemSP inpC 3 (3 / 2) = [13] ∧
      List.zipWith (fun b s => (3 / 2 : ℚ) * (b - s))
        ((inpC.raw ("Brazil")).drop (inicioOf inpC 3 ("Brazil")))
        (spStateDaily inpC 3) = [12] ∧
      dataBrSemSP inpC 3 (3 / 2) ≠
        List.zipWith (fun b s => (3 / 2 : ℚ) * (b - s))
          ((inpC.raw ("Brazil")).drop (inicioOf inpC 3 ("Brazil")))
          (spStateDaily inpC 3) := by
  refine ⟨?h1, ?h2, ?_⟩
  case h1 =>
    norm_num [dataBrSemSP, dataBrazil, spStateDaily, diffRev, inicioOf,
      idxmaxGe, nbrOf, inpC, List.findIdx_cons]
  case h2 =>
    norm_num [spStateDaily, diffRev, inicioOf, idxmaxGe, nbrOf, inpC,
      List.findIdx_cons]
  case _ =>
    norm_num [dataBrSemSP, dataBrazil, spStateDaily, diffRev, inicioOf,
      idxmaxGe, nbrOf, inpC, List.findIdx_cons]

/-- C2, amended: `p4` multiplies the whole-country, region and city columns
element-wise and multiplies no other country's column (those are exact raw
slices); the complement cut `Brazil_sem_SP` equals `p4` times the raw Brazil
series minus the *uncorrected* SP daily series — the subtrahend does not
carry the correction. -/
theorem c2_p4_application (inp : PrepIn) (p1 p4 : ℚ) :
    dataBrazil inp p1 p4 =
      ((inp.raw ("Brazil")).drop (inicioOf inp p1 ("Brazil"))).map
        (fun v => v * p4) ∧
    dataSP inp p1 p4 = (spStateDaily inp p1).map (fun v => v * p4) ∧
    dataSPCity inp p1 p4 = (spCityDaily inp p1).map (fun v => v * p4) ∧
    (∀ k i, i < nbrOf inp p1 →
      (dataCountry inp p1 k).getD i 0 =
        (inp.raw k).getD (inicioOf inp p1 k + i) 0) ∧
    dataBrSemSP inp p1 p4 =
      List.zipWith (fun b s => b * p4 - s)
        ((inp.raw ("Brazil")).drop (inicioOf inp p1 ("Brazil")))
        (spStateDaily inp p1) := by
  refine ⟨rfl, rfl, rfl, ?_, ?_⟩
  · intro k i hi
    simp [dataCountry, List.getElem?_take_of_lt hi, List.getElem?_drop]
  · unfold dataBrSemSP dataBrazil
    rw [List.zipWith_map_left]

/-- C2 witness: the amended theorem applied to `inpA` with `p1 = 3`,
`p4 = 3/2`; in particular the inner quantifiers are instantiated at Chile,
day 0, where the aligned value is the raw value `3` with no `p4` factor. -/
theorem c2_witness :
    (0 : ℕ) < nbrOf inpA 3 ∧
      (dataCountry inpA 3 ("Chile")).getD 0 0 =
        (inpA.raw ("Chile")).getD (inicioOf inpA 3 ("Chile") + 0) 0 ∧
      dataBrSemSP inpA 3 (3 / 2) =
        List.zipWith (fun b s => b * (3 / 2) - s)
          ((inpA.raw ("Brazil")).drop (inicioOf inpA 3 ("Brazil")))
          (spStateDaily inpA 3) := by
  have h := c2_p4_application inpA 3 (3 / 2)
  have hnbr : (0 : ℕ) < nbrOf inpA 3 := by
    norm_num [nbrOf, inicioOf, idxmaxGe, inpA, List.findIdx_cons]
  exact ⟨hnbr, h.2.2.2.1 ("Chile") 0 hnbr, h.2.2.2.2⟩

/-!  ### C5 — seam continuity and leading no-data markers -/

/-- C5: for every run of the projection, the entry at index `nbr - 1` equals
the reference's calibrated value at index `nbr - 1` (the seam), and every
entry at an index below `nbr - 1` is the no-data marker `none` — not a zero. -/
theorem c5_seam_and_markers (m : ModelIn) (p2 p3 : ℕ) (_h : 1 ≤ m.nbr) :
    (projOf m p2 p3).getD (m.nbr - 1) none =
      (calibRef m p2 p3).getD (m.nbr - 1) none ∧
    ∀ i < m.nbr - 1, (projOf m p2 p3).getD i none = none := by
  constructor
  · rw [projOf, List.getD_eq_getElem?_getD,
      List.getElem?_append_left (by simp [Nat.lt_succ_self]),
      List.getElem?_append_right (by simp)]
    simp [seamOf]
  · intro i hi
    rw [projOf, List.getD_eq_getElem?_getD,
      List.getElem?_append_left (by simp; omega),
      List.getElem?_append_left (by simpa using hi)]
    simp [hi]

/-- C5 witness: the theorem applied to `mA` with `p2 = 5`, `p3 = 1`;
there `nbr = 2`, the seam at index 1 evaluates to `some 4`, and index 0 is
`none`. -/
theorem c5_witness :
    (1 : ℕ) ≤ mA.nbr ∧
      ((projOf mA 5 1).getD (mA.nbr - 1) none =
          (calibRef mA 5 1).getD (mA.nbr - 1) none ∧
        ∀ i < mA.nbr - 1, (projOf mA 5 1).getD i none = none) ∧
      (projOf mA 5 1).getD (mA.nbr - 1) none = some 4 := by
  have h1 : ¬ ((9 : ℚ) / 10 ≤ 0) := by norm_num
  have h2 : ((9 : ℚ) / 10 ≤ 1) := by norm_num
  have h5 : ¬ ((1 : ℚ) ≤ 9 / 10) := by norm_num
  have h8 : ¬ ((1 : ℚ) ≤ 0) := by norm_num
  refine ⟨by norm_num [mA], c5_seam_and_markers mA 5 1 (by norm_num [mA]), ?_⟩
  simp [projOf, seamOf, calibRef, calibColOf, comparatorCol, totalLen, padTo,
    rollingMean, meanOpt, List.range_succ, projTail, xDayOf, contrib, pesoOf,
    correlacionadosOf, sortDesc, mA, out, List.insertionSort,
    List.orderedInsert, optMul, optAdd, List.range', h1, h2, h5, h8]

/-!  ### C7 — comparator selection -/

/-- C7: the ComparatorSet never contains any of the four local cuts, is
ordered by descending correlation with the reference, selects a top-`K` set
(every eligible non-selected region correlates no better than every selected
one), and when fewer than `K` eligible regions exist it contains all of them
— the run proceeds. -/
theorem c7_selection (m : ModelIn) (p2 : ℕ) :
    (∀ c ∈ correlacionadosOf m p2, c ∉ out) ∧
    List.Sorted (fun a b => m.corr b ≤ m.corr a) (correlacionadosOf m p2) ∧
    (correlacionadosOf m p2).length =
      min p2 ((m.names.filter (fun k => decide (k ∉ out))).length) ∧
    (∀ b ∈ m.names, b ∉ out → b ∉ correlacionadosOf m p2 →
      ∀ a ∈ correlacionadosOf m p2, m.corr b ≤ m.corr a) ∧
    ((m.names.filter (fun k => decide (k ∉ out))).length ≤ p2 →
      ∀ b ∈ m.names, b ∉ out → b ∈ correlacionadosOf m p2) := by
  have htotal : IsTotal Name (fun a b => m.corr b ≤ m.corr a) :=
    ⟨fun a b => le_total (m.corr b) (m.corr a)⟩
  have htrans : IsTrans Name (fun a b => m.corr b ≤ m.corr a) :=
    ⟨fun _ _ _ hab hbc => le_trans hbc hab⟩
  have hperm : List.Perm (sortDesc m.corr m.names) m.names :=
    List.perm_insertionSort _ m.names
  have hsorted : List.Sorted (fun a b => m.corr b ≤ m.corr a)
      (sortDesc m.corr m.names) :=
    @List.sorted_insertionSort Name _ _ htotal htrans m.names
  have hfsorted : List.Sorted (fun a b => m.corr b ≤ m.corr a)
      ((sortDesc m.corr m.names).filter (fun k => decide (k ∉ out))) :=
    List.Pairwise.filter _ hsorted
  have hmemf : ∀ b, b ∈ m.names → b ∉ out →
      b ∈ (sortDesc m.corr m.names).filter (fun k => decide (k ∉ out)) := by
    intro b hb hbo
    exact List.mem_filter.mpr ⟨hperm.mem_iff.mpr hb, by simpa using hbo⟩
  refine ⟨?_, ?_, ?_, ?_, ?_⟩
  · intro c hc
    have hcf := List.mem_of_mem_take hc
    have := (List.mem_filter.mp hcf).2
    simpa using this
  · exact List.Pairwise.sublist (List.take_sublist _ _) hfsorted
  · rw [correlacionadosOf, List.length_take,
      ((hperm.filter (fun k => decide (k ∉ out))).length_eq)]
  · intro b hb hbo hbn a ha
    have hbf := hmemf b hb hbo
    rw [← List.take_append_drop p2
      ((sortDesc m.corr m.names).filter (fun k => decide (k ∉ out)))]
      at hbf hfsorted
    rcases List.mem_append.mp hbf with hbt | hbd
    · exact absurd hbt hbn
    · exact (List.pairwise_append.mp hfsorted).2.2 a ha b hbd
  · intro hlen b hb hbo
    have hle : ((sortDesc m.corr m.names).filter
        (fun k => decide (k ∉ out))).length ≤ p2 := by
      rw [(hperm.filter (fun k => decide (k ∉ out))).length_eq]
      exact hlen
    rw [correlacionadosOf, List.take_of_length_le hle]
    exact hmemf b hb hbo

/-- C7 witness: the theorem applied to `mA` with `K = 5`; only one eligible
region (Chile) exists, fewer than `K = 5`, and it is selected. -/
theorem c7_witness :
    (∀ c ∈ correlacionadosOf mA 5, c ∉ out) ∧
      (correlacionadosOf mA 5).length =
        min 5 ((mA.names.filter (fun k => decide (k ∉ out))).length) ∧
      ("Chile") ∈ correlacionadosOf mA 5 := by
  have h := c7_selection mA 5
  refine ⟨h.1, h.2.2.1, h.2.2.2.2 ?_ ("Chile") ?_ ?_⟩
  · simp [mA, out]
  · simp [mA]
  · simp [out]

/-!  ### C6 — projection weights -/

theorem sum_map_div (l : List ℚ) (r : ℚ) :
    (l.map (fun x => x / r)).sum = l.sum / r := by
  induction l with
  | nil => simp
  | cons x xs ih => simp [ih, add_div]

/-- C6, counterexample.  The claim says the weights are non-negative.  On
`mB` the two selected comparators have correlations 1 and -1/2 with the
reference — both exactly realisable Pearson values, witnessed by the data
columns [1,2,3] (reference), [2,4,6] and [2,0,1] — and Belgium's normalised
weight is `(-1/2) / (1/2) = -1 < 0`. -/
theorem c6_counterexample :
    correlacionadosOf mB 5 = ["Argentina", "Belgium"] ∧
      isPearson [1, 2, 3] [2, 4, 6] (mB.corr ("Argentina")) ∧
      isPearson [1, 2, 3] [2, 0, 1] (mB.corr ("Belgium")) ∧
      pesoOf mB 5 ("Belgium") = -1 ∧
      ¬ (0 ≤ pesoOf mB 5 ("Belgium")) := by
  have hA : ((-2⁻¹ : ℚ) ≤ 1) := by norm_num
  have hB : ¬ ((1 : ℚ) ≤ 0) := by norm_num
  have hC : ((-2⁻¹ : ℚ) ≤ 0) := by norm_num
  have hD : ¬ ((0 : ℚ) ≤ -2⁻¹) := by norm_num
  have hE : ¬ ((1 : ℚ) ≤ -2⁻¹) := by norm_num
  have hF : ((0 : ℚ) ≤ 1) := by norm_num
  have hsel : correlacionadosOf mB 5 = ["Argentina", "Belgium"] := by
    simp [correlacionadosOf, sortDesc, mB, out, List.insertionSort,
      List.orderedInsert, hA, hB, hC, hD, hE, hF]
  have hBA : ("Belgium" : String) ≠ "Argentina" := by decide
  have hpeso : pesoOf mB 5 ("Belgium") = -1 := by
    rw [pesoOf, hsel]
    norm_num [mB, hBA]
  refine ⟨hsel, ?_, ?_, hpeso, ?_⟩
  · norm_num [isPearson, sxy, meanQ, mB]
  · norm_num [isPearson, sxy, meanQ, mB, hBA]
  · rw [hpeso]
    norm_num

/-- C6, amended: whenever the sum of the selected comparators' correlations
is nonzero, the weights sum exactly to 1 and each weight is the comparator's
correlation divided by that sum (so proportional to its correlation); the
weights need *not* be non-negative, since selected correlations can be
negative. -/
theorem c6_weights (m : ModelIn) (p2 : ℕ)
    (h : ((correlacionadosOf m p2).map m.corr).sum ≠ 0) :
    ((correlacionadosOf m p2).map (pesoOf m p2)).sum = 1 ∧
    (∀ c, pesoOf m p2 c =
      m.corr c / ((correlacionadosOf m p2).map m.corr).sum) := by
  refine ⟨?_, fun c => rfl⟩
  have hmap : (correlacionadosOf m p2).map (pesoOf m p2) =
      ((correlacionadosOf m p2).map m.corr).map
        (fun x => x / ((correlacionadosOf m p2).map m.corr).sum) := by
    rw [List.map_map]
    rfl
  rw [hmap, sum_map_div, div_self h]

/-- C6 witness: the amended theorem applied to `mB`, whose selected
correlation sum is `1/2 ≠ 0`: the two weights `2` and `-1` sum to 1. -/
theorem c6_witness :
    ((correlacionadosOf mB 5).map mB.corr).sum ≠ 0 ∧
      ((correlacionadosOf mB 5).map (pesoOf mB 5)).sum = 1 ∧
      (∀ c, pesoOf mB 5 c =
        mB.corr c / ((correlacionadosOf mB 5).map mB.corr).sum) := by
  have hA : ((-2⁻¹ : ℚ) ≤ 1) := by norm_num
  have hB : ¬ ((1 : ℚ) ≤ 0) := by norm_num
  have hC : ((-2⁻¹ : ℚ) ≤ 0) := by norm_num
  have hD : ¬ ((0 : ℚ) ≤ -2⁻¹) := by norm_num
  have hE : ¬ ((1 : ℚ) ≤ -2⁻¹) := by norm_num
  have hF : ((0 : ℚ) ≤ 1) := by norm_num
  have hsel : correlacionadosOf mB 5 = ["Argentina", "Belgium"] := by
    simp [correlacionadosOf, sortDesc, mB, out, List.insertionSort,
      List.orderedInsert, hA, hB, hC, hD, hE, hF]
  have hBA : ("Belgium" : String) ≠ "Argentina" := by decide
  have h : ((correlacionadosOf mB 5).map mB.corr).sum ≠ 0 := by
    rw [hsel]
    norm_num [mB, hBA]
  exact ⟨h, (c6_weights mB 5 h).1, (c6_weights mB 5 h).2⟩

/-!  ### C3 — neutral multiplier and non-finite propagation -/

theorem optAdd_none_left (x : Option ℚ) : optAdd none x = none := by
  cases x <;> rfl

theorem optAdd_none_right (x : Option ℚ) : optAdd x none = none := by
  cases x <;> rfl

theorem optMul_none_right (x : Option ℚ) : optMul x none = none := by
  cases x <;> rfl

theorem foldl_optAdd_none (f : Name → Option ℚ) (l : List Name) :
    l.foldl (fun acc c => optAdd acc (f c)) none = none := by
  induction l with
  | nil => rfl
  | cons x xs ih =>
    rw [List.foldl_cons, optAdd_none_left]
    exact ih

theorem foldl_optAdd_eq_none {f : Name → Option ℚ} {l : List Name} {c : Name}
    (hc : c ∈ l) (hf : f c = none) (a : Option ℚ) :
    l.foldl (fun acc k => optAdd acc (f k)) a = none := by
  induction l generalizing a with
  | nil => cases hc
  | cons x xs ih =>
    rcases List.mem_cons.mp hc with rfl | hx
    · rw [List.foldl_cons, hf, optAdd_none_right]
      exact foldl_optAdd_none f xs
    · exact ih hx _

/-- C3, counterexample.  The claim says a zero at day `d-1` routes through
the neutral multiplier 1 and nothing non-finite reaches ProjectedSeries.  On
`mC` the single comparator's calibrated column is `[0, 5]`: at `d = 1` the
guard only checks day `d` (which is present), the code divides `5 / 0`, and
the resulting non-finite value lands in `projetado[1]` — instead of the
claimed `proj[0] * 1 = some 1`. -/
theorem c3_counterexample :
    (calibColOf mC 5 1 ("Chile")).getD 0 none = some 0 ∧
      (calibColOf mC 5 1 ("Chile")).getD 1 none = some 5 ∧
      projOf mC 5 1 = [some 1, none] ∧
      (projOf mC 5 1).getD 1 none ≠ some 1 := by
  have h6 : ¬ ((1 : ℚ) ≤ 0) := by norm_num
  have h7 : ((0 : ℚ) ≤ 1) := by norm_num
  refine ⟨?_, ?_, ?_, ?_⟩ <;>
    simp [projOf, seamOf, calibRef, calibColOf, comparatorCol, totalLen,
      padTo, rollingMean, meanOpt, List.range_succ, projTail, xDayOf, contrib,
      pesoOf, correlacionadosOf, sortDesc, mC, out, List.insertionSort,
      List.orderedInsert, optMul, optAdd, List.range', h6, h7]

/-- C3, amended: the projection's guard tests the comparator's value at day
`d`, not `d-1`.  A missing value at day `d` contributes the neutral
`1 * weight`; a present value at day `d` over a zero or missing value at day
`d-1` makes the contribution non-finite, and one non-finite contribution
poisons the day multiplier and, through the running product, the projected
series. -/
theorem c3_guard_on_day_d (m : ModelIn) (p2 p3 : ℕ) :
    (∀ (col : List (Option ℚ)) (w : ℚ) (d : ℕ),
      col.getD d none = none → contrib col w d = some w) ∧
    (∀ (col : List (Option ℚ)) (w : ℚ) (d : ℕ) (v u : ℚ),
      col.getD d none = some v → col.getD (d - 1) none = some u → u ≠ 0 →
      contrib col w d = some (v / u * w)) ∧
    (∀ (col : List (Option ℚ)) (w : ℚ) (d : ℕ) (v : ℚ),
      col.getD d none = some v →
      (col.getD (d - 1) none = some 0 ∨ col.getD (d - 1) none = none) →
      contrib col w d = none) ∧
    (∀ (d : ℕ) (c : Name), c ∈ correlacionadosOf m p2 →
      contrib (calibColOf m p2 p3 c) (pesoOf m p2 c) d = none →
      xDayOf m p2 p3 d = none) ∧
    (∀ prev : Option ℚ, optMul prev none = none) := by
  refine ⟨?_, ?_, ?_, ?_, optMul_none_right⟩
  · intro col w d h
    rw [contrib, h]
  · intro col w d v u hv hu hne
    rw [contrib, hv, hu]
    simp [hne]
  · intro col w d v hv hu
    rcases hu with hu | hu
    · rw [contrib, hv, hu]
      simp
    · rw [contrib, hv, hu]
  · intro d c hc hnone
    exact foldl_optAdd_eq_none hc hnone (some 0)

/-- C3 witness: the amended theorem applied at `mC`: a missing day-`d` value
contributes the neutral weighted 1, and the concrete non-finite contribution
of Chile at day 1 (division by the zero at day 0) poisons the multiplier. -/
theorem c3_witness :
    contrib [none] (1 / 2) 0 = some (1 / 2) ∧ xDayOf mC 5 1 1 = none := by
  have h6 : ¬ ((1 : ℚ) ≤ 0) := by norm_num
  have h7 : ((0 : ℚ) ≤ 1) := by norm_num
  have h := c3_guard_on_day_d mC 5 1
  constructor
  · exact h.1 [none] (1 / 2) 0 (by simp)
  · refine h.2.2.2.1 1 ("Chile") ?_ ?_
    · simp [correlacionadosOf, sortDesc, mC, out, List.insertionSort,
        List.orderedInsert, h6, h7]
    · simp [calibColOf, comparatorCol, totalLen, padTo, rollingMean, meanOpt,
        List.range_succ, contrib, pesoOf, correlacionadosOf, sortDesc, mC,
        out, List.insertionSort, List.orderedInsert, List.range', h6, h7]

/-!  ### C10 — the smoothing window as an unstated precondition -/

theorem optMul_none_left (x : Option ℚ) : optMul none x = none := by
  cases x <;> rfl

theorem le_foldl_max (l : List ℕ) (b : ℕ) : b ≤ l.foldl max b := by
  induction l generalizing b with
  | nil => exact le_refl b
  | cons x xs ih => exact le_trans (le_max_left b x) (ih (max b x))

theorem getD_eq_none_of_all {l : List (Option ℚ)}
    (h : ∀ x ∈ l, x = none) (i : ℕ) : l.getD i none = none := by
  rw [List.getD_eq_getElem?_getD]
  cases hx : l[i]? with
  | none => rfl
  | some v =>
    have hv : v ∈ l := List.getElem?_mem hx
    simp [h v hv]

theorem projTail_none (m : ModelIn) (p2 p3 : ℕ) (ds : List ℕ) :
    ∀ x ∈ projTail m p2 p3 none ds, x = none := by
  induction ds with
  | nil => intro x hx; cases hx
  | cons d ds ih =>
    intro x hx
    rw [projTail, optMul_none_left] at hx
    rcases List.mem_cons.mp hx with rfl | hx
    · rfl
    · exact ih x hx

/-- C10: if the target's aligned length `nbr` is smaller than the smoothing
window `p3`, the trailing moving average has no full window at index
`nbr - 1`, so the seam value is undefined and *every* entry of the projected
series is undefined; conversely, when the reference series has length `nbr`
and `p3 ≤ nbr`, the seam value is defined — the projection yields defined
values only under the unstated precondition `nbr ≥ p3`. -/
theorem c10_projection_window (m : ModelIn) (p2 p3 : ℕ) :
    (1 ≤ m.nbr → m.nbr < p3 →
      seamOf m p2 p3 = none ∧ ∀ i, (projOf m p2 p3).getD i none = none) ∧
    (m.por100kRef.length = m.nbr → 1 ≤ p3 → p3 ≤ m.nbr →
      (seamOf m p2 p3).isSome = true) := by
  constructor
  · intro h1 h2
    have hseam : seamOf m p2 p3 = none := by
      rw [seamOf, calibRef, rollingMean, List.getD_eq_getElem?_getD]
      by_cases hlt :
          m.nbr - 1 < (padTo (totalLen m p2) m.por100kRef).length
      · rw [List.getElem?_map, List.getElem?_range (by simpa using hlt)]
        have hsub : m.nbr - 1 + 1 = m.nbr := Nat.succ_pred_eq_of_pos h1
        simp [hsub, h2]
      · rw [List.getElem?_eq_none (by simpa using Nat.le_of_not_lt hlt)]
        rfl
    refine ⟨hseam, fun i => getD_eq_none_of_all ?_ i⟩
    intro x hx
    rw [projOf, hseam] at hx
    rcases List.mem_append.mp hx with hx' | hx'
    · rcases List.mem_append.mp hx' with hx'' | hx''
      · exact List.eq_of_mem_replicate hx''
      · simpa using hx''
    · exact projTail_none m p2 p3 _ x hx'
  · intro hlen h1p3 hp3nbr
    have h1 : 1 ≤ m.nbr := le_trans h1p3 hp3nbr
    have hnbr_le_total : m.nbr ≤ totalLen m p2 := by
      rw [totalLen, ← hlen]
      exact le_foldl_max _ _
    have hpadlen : (padTo (totalLen m p2) m.por100kRef).length
        = totalLen m p2 := by
      rw [padTo]
      simp [hlen]
      omega
    have hidx : m.nbr - 1 < (padTo (totalLen m p2) m.por100kRef).length := by
      omega
    rw [seamOf, calibRef, rollingMean, List.getD_eq_getElem?_getD,
      List.getElem?_map, List.getElem?_range (by simpa using hidx)]
    have hsub : m.nbr - 1 + 1 = m.nbr := Nat.succ_pred_eq_of_pos h1
    rw [Option.map_some']
    simp only [Option.getD_some, hsub, Nat.not_lt.mpr hp3nbr, if_false]
    have htl : p3 ≤ ((m.por100kRef.map some).drop (m.nbr - p3)).length := by
      simp [hlen]
      omega
    have hwin : ∀ x ∈ ((padTo (totalLen m p2) m.por100kRef).drop
        (m.nbr - p3)).take p3, x.isSome = true := by
      intro x hx
      rw [padTo, List.drop_append_of_le_length (by simp [hlen]),
        List.take_append_of_le_length htl] at hx
      rcases List.mem_map.mp
        (List.mem_of_mem_drop (List.mem_of_mem_take hx)) with ⟨y, _, rfl⟩
      rfl
    rw [meanOpt, if_pos (List.all_eq_true.mpr hwin)]
    rfl

/-- C10 witness: both directions at `mA` (`nbr = 2`): with `p3 = 7 > 2`
every projected entry is undefined, and with `p3 = 1 ≤ 2` the seam is
defined. -/
theorem c10_witness :
    ((1 : ℕ) ≤ mA.nbr ∧ mA.nbr < 7 ∧
      seamOf mA 5 7 = none ∧ (projOf mA 5 7).getD 1 none = none) ∧
    (mA.por100kRef.length = mA.nbr ∧ (1 : ℕ) ≤ 1 ∧ 1 ≤ mA.nbr ∧
      (seamOf mA 5 1).isSome = true) := by
  have ha : (1 : ℕ) ≤ mA.nbr := by norm_num [mA]
  have hb : mA.nbr < 7 := by norm_num [mA]
  have hc : mA.por100kRef.length = mA.nbr := by norm_num [mA]
  have hd : (1 : ℕ) ≤ mA.nbr := by norm_num [mA]
  have h1 := (c10_projection_window mA 5 7).1 ha hb
  have h2 := (c10_projection_window mA 5 1).2 hc (le_refl 1) hd
  exact ⟨⟨ha, hb, h1.1, h1.2 1⟩, ⟨hc, le_refl 1, hd, h2⟩⟩

/-!  ### C8 — peak summary -/

theorem le_foldl_maxQ (l : List ℚ) (b : ℚ) : b ≤ l.foldl max b := by
  induction l generalizing b with
  | nil => exact le_refl b
  | cons x xs ih => exact le_trans (le_max_left b x) (ih (max b x))

theorem mem_le_foldl_maxQ {l : List ℚ} {a : ℚ} (h : a ∈ l) (b : ℚ) :
    a ≤ l.foldl max b := by
  induction l generalizing b with
  | nil => cases h
  | cons x xs ih =>
    rw [List.foldl_cons]
    rcases List.mem_cons.mp h with rfl | h
    · exact le_trans (le_max_right b a) (le_foldl_maxQ xs _)
    · exact ih h _

/-- C8, counterexample.  Two divergences from the claim: the absolute deaths
at peak are *truncated*, not rounded (`pico = 27/10`, population `10^5`:
the code's `int(2.7) = 2`, rounding gives 3), and the peak index is searched
in the original NaN-carrying list, so on `[NaN, 0.0]` — whose zero-treated
maximum 0 is attained first at index 0 — the code returns index 1. -/
theorem c8_counterexample :
    mortesNoPicoOf [some (27 / 10)] 100000 = 2 ∧
      round (picoOf [some (27 / 10)] * 100000 / 100000) = 3 ∧
      mortesNoPicoOf [some (27 / 10)] 100000 ≠
        round (picoOf [some (27 / 10)] * 100000 / 100000) ∧
      nanToNum (([none, some 0] : List (Option ℚ)).getD 0 none) =
        picoOf [none, some 0] ∧
      ixDoPicoOf [none, some 0] = some 1 := by
  have hpic : picoOf [some ((27 : ℚ) / 10)] = 27 / 10 := by
    norm_num [picoOf, nanToNum]
  have hm : mortesNoPicoOf [some ((27 : ℚ) / 10)] 100000 = 2 := by
    norm_num [mortesNoPicoOf, picoOf, nanToNum, truncQ]
  have hr : round (picoOf [some ((27 : ℚ) / 10)] * 100000 / 100000) = 3 := by
    rw [hpic]
    norm_num [round_eq]
  refine ⟨hm, hr, ?_, ?_, ?_⟩
  · rw [hm, hr]
    decide
  · norm_num [picoOf, nanToNum]
  · simp [ixDoPicoOf, picoOf, nanToNum, List.findIdx?_cons]

/-- C8, amended: the peak value is the maximum of the series with every
no-data position treated as zero, hence at least every defined value; *when*
the extractor returns a peak index it is the first position whose actual
entry equals the peak (a maximum attained only through zero-substitution
makes the lookup fail instead); and the absolute deaths at peak are
`pico * population / 1e5` *truncated toward zero* (floor, for the
non-negative values arising here), not rounded to nearest. -/
theorem c8_peak_summary (l : List (Option ℚ)) (pop : ℚ) (_h : l ≠ []) :
    (∀ i < l.length, nanToNum (l.getD i none) ≤ picoOf l) ∧
    (∀ i v, l.getD i none = some v → v ≤ picoOf l) ∧
    (∀ i, ixDoPicoOf l = some i →
      l.getD i none = some (picoOf l) ∧
      ∀ j < i, l.getD j none ≠ some (picoOf l)) ∧
    (0 ≤ picoOf l * pop / 100000 →
      (mortesNoPicoOf l pop : ℚ) ≤ picoOf l * pop / 100000 ∧
      picoOf l * pop / 100000 < (mortesNoPicoOf l pop : ℚ) + 1) := by
  have hmax : ∀ i < l.length, nanToNum (l.getD i none) ≤ picoOf l := by
    intro i hi
    have hmem : nanToNum (l.getD i none) ∈ l.map nanToNum := by
      rw [List.getD_eq_getElem?_getD, List.getElem?_eq_getElem hi]
      exact List.mem_map_of_mem _ (List.getElem_mem hi)
    cases hml : l.map nanToNum with
    | nil => rw [hml] at hmem; cases hmem
    | cons x xs =>
      rw [hml] at hmem
      rw [picoOf, hml]
      rcases List.mem_cons.mp hmem with heq | hmem2
      · rw [heq]
        exact le_foldl_maxQ xs x
      · exact mem_le_foldl_maxQ hmem2 x
  refine ⟨hmax, ?_, ?_, ?_⟩
  · intro i v hv
    have hi : i < l.length := by
      by_contra hno
      rw [List.getD_eq_getElem?_getD,
        List.getElem?_eq_none (Nat.le_of_not_lt hno)] at hv
      cases hv
    have := hmax i hi
    rw [hv] at this
    exact this
  · intro i hix
    rw [ixDoPicoOf] at hix
    obtain ⟨hilen, hfi⟩ := List.findIdx?_eq_some_iff_findIdx_eq.mp hix
    constructor
    · have hp := @List.findIdx_getElem _
        (fun x => decide (x = some (picoOf l))) l (by rw [hfi]; exact hilen)
      simp only [hfi, decide_eq_true_eq] at hp
      rw [List.getD_eq_getElem?_getD, List.getElem?_eq_getElem hilen]
      simpa using hp
    · intro j hj
      have hjlt : j < l.findIdx (fun x => decide (x = some (picoOf l))) := by
        rw [hfi]
        exact hj
      have hp := List.not_of_lt_findIdx hjlt
      have hjlen : j < l.length := lt_trans hj hilen
      rw [List.getD_eq_getElem?_getD, List.getElem?_eq_getElem hjlen]
      simpa using hp
  · intro hge
    rw [mortesNoPicoOf, truncQ, if_pos hge]
    exact ⟨Int.floor_le _, Int.lt_floor_add_one _⟩

/-- C8 witness: the amended theorem applied to the series `[NaN, 4]` with
population `10^5`: every defined value is at most the peak 4, the returned
index 1 holds the peak, and the absolute deaths 4 satisfy the floor
bracketing. -/
theorem c8_witness :
    ([none, some 4] : List (Option ℚ)) ≠ [] ∧
      (∀ i v, ([none, some 4] : List (Option ℚ)).getD i none = some v →
        v ≤ picoOf [none, some 4]) ∧
      ([none, some 4] : List (Option ℚ)).getD 1 none =
        some (picoOf [none, some 4]) ∧
      (0 : ℚ) ≤ picoOf [none, some 4] * 100000 / 100000 ∧
      (mortesNoPicoOf [none, some 4] 100000 : ℚ) ≤
        picoOf [none, some 4] * 100000 / 100000 := by
  have hne : ([none, some 4] : List (Option ℚ)) ≠ [] := by simp
  have h := c8_peak_summary [none, some 4] 100000 hne
  have hix : ixDoPicoOf [none, some 4] = some 1 := by
    simp [ixDoPicoOf, picoOf, nanToNum, List.findIdx?_cons]
  have hge : (0 : ℚ) ≤ picoOf [none, some 4] * 100000 / 100000 := by
    norm_num [picoOf, nanToNum]
  exact ⟨hne, h.2.1, (h.2.2.1 1 hix).1, hge, (h.2.2.2 hge).1⟩

/-!  ### C9 — determinism and the wall clock -/

/-- C9, counterexample.  PeakSummary contains the peak calendar date, which
the code derives from `datetime.datetime.now()`: two runs of the full
pipeline on the *identical* input tables, with the ambient clock reading
day 0 and day 1 respectively, return different `dia_do_pico` — so the
output is not bit-identical and does depend on ambient state. -/
theorem c9_counterexample :
    (runPipeline inpD (fun _ => 0) 3 1 5 1 ("Brazil") 0).diaDoPico =
      some (-1) ∧
      (runPipeline inpD (fun _ => 0) 3 1 5 1 ("Brazil") 1).diaDoPico =
        some 0 ∧
      (runPipeline inpD (fun _ => 0) 3 1 5 1 ("Brazil") 0).diaDoPico ≠
        (runPipeline inpD (fun _ => 0) 3 1 5 1 ("Brazil") 1).diaDoPico := by
  have hBSP : ("Brazil" : String) ≠ "SP" := by decide
  have hBSC : ("Brazil" : String) ≠ "SP_City" := by decide
  have hBSS : ("Brazil" : String) ≠ "Brazil_sem_SP" := by decide
  have h1 : dataBrazil inpD 3 1 = [3, 4] := by
    norm_num [dataBrazil, inicioOf, idxmaxGe, inpD, List.findIdx_cons]
  have hnbr : nbrOf inpD 3 = 2 := by
    norm_num [nbrOf, inicioOf, idxmaxGe, inpD, List.findIdx_cons]
  have hpop : popuBROf inpD ("Brazil") = 100000 := by
    norm_num [popuBROf, inpD, hBSP, hBSC, hBSS]
  have hpor : por100kOf inpD 3 1 ("Brazil") = [3, 4] := by
    rw [por100kOf]
    norm_num [hBSP, hBSC, hBSS, h1, hpop]
  have hinc : includedCountries inpD 3 = [] := by
    simp [includedCountries, includedCountry, inpD]
  have hmnbr : (modelOf inpD (fun _ => 0) 3 1 ("Brazil")).nbr = 2 := by
    simp [modelOf, hnbr]
  have hmpor : (modelOf inpD (fun _ => 0) 3 1 ("Brazil")).por100kRef
      = [3, 4] := by
    simp [modelOf, hpor]
  have hmnames : (modelOf inpD (fun _ => 0) 3 1 ("Brazil")).names =
      ["Brazil", "SP", "SP_City", "Brazil_sem_SP"] := by
    simp [modelOf, hinc]
  have hsel : correlacionadosOf (modelOf inpD (fun _ => 0) 3 1 ("Brazil")) 5
      = [] := by
    rw [correlacionadosOf, sortDesc, hmnames]
    simp [modelOf, out, List.insertionSort, List.orderedInsert]
  have htot : totalLen (modelOf inpD (fun _ => 0) 3 1 ("Brazil")) 5 = 2 := by
    rw [totalLen, hsel, hmpor]
    simp
  have hseam : seamOf (modelOf inpD (fun _ => 0) 3 1 ("Brazil")) 5 1
      = some 4 := by
    rw [seamOf, calibRef, htot, hmpor, hmnbr]
    norm_num [rollingMean, padTo, meanOpt, List.range_succ]
  have hproj : projOf (modelOf inpD (fun _ => 0) 3 1 ("Brazil")) 5 1
      = [none, some 4] := by
    rw [projOf, hseam, hmnbr, htot]
    simp [projTail, List.range']
  have hdia : ∀ t : ℤ,
      (runPipeline inpD (fun _ => 0) 3 1 5 1 ("Brazil") t).diaDoPico =
        some (t - 1) := by
    intro t
    simp only [runPipeline]
    rw [hproj, hmnbr]
    norm_num [diaDoPicoOf, ixDoPicoOf, picoOf, nanToNum, List.findIdx?_cons]
    simp
    omega
  refine ⟨?_, ?_, ?_⟩
  · rw [hdia 0]
    norm_num
  · rw [hdia 1]
    norm_num
  · rw [hdia 0, hdia 1]
    simp

/-- C9, amended: every output of the pipeline *except the peak calendar
date* — the aligned columns, the comparator set, the calibrated columns, the
projected series, and the peak value, index and absolute-death fields of
PeakSummary — is a deterministic function of the input tables alone; two
runs at the same clock value agree on everything.  Only `dia_do_pico` reads
the ambient wall clock. -/
theorem c9_determinism (inp : PrepIn) (corr : Name → ℚ) (p1 p4 : ℚ)
    (p2 p3 : ℕ) (ref : Name) (t1 t2 : ℤ) :
    (runPipeline inp corr p1 p4 p2 p3 ref t1).alignedBrazil =
      (runPipeline inp corr p1 p4 p2 p3 ref t2).alignedBrazil ∧
    (runPipeline inp corr p1 p4 p2 p3 ref t1).alignedSP =
      (runPipeline inp corr p1 p4 p2 p3 ref t2).alignedSP ∧
    (runPipeline inp corr p1 p4 p2 p3 ref t1).alignedSPCity =
      (runPipeline inp corr p1 p4 p2 p3 ref t2).alignedSPCity ∧
    (runPipeline inp corr p1 p4 p2 p3 ref t1).alignedBrSemSP =
      (runPipeline inp corr p1 p4 p2 p3 ref t2).alignedBrSemSP ∧
    (runPipeline inp corr p1 p4 p2 p3 ref t1).alignedCountries =
      (runPipeline inp corr p1 p4 p2 p3 ref t2).alignedCountries ∧
    (runPipeline inp corr p1 p4 p2 p3 ref t1).correlacionados =
      (runPipeline inp corr p1 p4 p2 p3 ref t2).correlacionados ∧
    (runPipeline inp corr p1 p4 p2 p3 ref t1).calibRefCol =
      (runPipeline inp corr p1 p4 p2 p3 ref t2).calibRefCol ∧
    (runPipeline inp corr p1 p4 p2 p3 ref t1).calibCols =
      (runPipeline inp corr p1 p4 p2 p3 ref t2).calibCols ∧
    (runPipeline inp corr p1 p4 p2 p3 ref t1).projetado =
      (runPipeline inp corr p1 p4 p2 p3 ref t2).projetado ∧
    (runPipeline inp corr p1 p4 p2 p3 ref t1).pico =
      (runPipeline inp corr p1 p4 p2 p3 ref t2).pico ∧
    (runPipeline inp corr p1 p4 p2 p3 ref t1).mortesNoPico =
      (runPipeline inp corr p1 p4 p2 p3 ref t2).mortesNoPico ∧
    (runPipeline inp corr p1 p4 p2 p3 ref t1).ixDoPico =
      (runPipeline inp corr p1 p4 p2 p3 ref t2).ixDoPico ∧
    (t1 = t2 → runPipeline inp corr p1 p4 p2 p3 ref t1 =
      runPipeline inp corr p1 p4 p2 p3 ref t2) := by
  refine ⟨rfl, rfl, rfl, rfl, rfl, rfl, rfl, rfl, rfl, rfl, rfl, rfl, ?_⟩
  rintro rfl
  rfl

/-- C9 witness: the amended theorem applied to `inpD` at two distinct clock
values (0 and 5): the projected series coincide; and at the same clock value
(0 and 0, discharging `t1 = t2` with `rfl`) the whole outputs coincide. -/
theorem c9_witness :
    (runPipeline inpD (fun _ => 0) 3 1 5 1 ("Brazil") 0).projetado =
      (runPipeline inpD (fun _ => 0) 3 1 5 1 ("Brazil") 5).projetado ∧
    runPipeline inpD (fun _ => 0) 3 1 5 1 ("Brazil") 0 =
      runPipeline inpD (fun _ => 0) 3 1 5 1 ("Brazil") 0 :=
  ⟨(c9_determinism inpD (fun _ => 0) 3 1 5 1 ("Brazil") 0
      5).2.2.2.2.2.2.2.2.1,
    (c9_determinism inpD (fun _ => 0) 3 1 5 1 ("Brazil") 0
      0).2.2.2.2.2.2.2.2.2.2.2.2 rfl⟩

end CovidBr
